import Mathlib

/-!
Verification of the sandboxed file store (`api.py` of LiveKit-CRUD-App).

The embedding models POSIX paths as lists of segment strings, the scratchpad
directory content as an association list from sandbox-relative paths to nodes
(files with text content, or directories), and each `AssistantFnc` method as a
pure function from a filesystem state to a new state plus the returned message
string.  Path parsing, `..` resolution and the prefix containment check mirror
`pathlib`'s behaviour on the joined absolute path (symlink-free filesystem).
-/

set_option autoImplicit false

namespace SandboxStore

/-! ### Character and string utilities mirroring Python `str` / `pathlib` -/

/-- Whitespace characters removed by Python's `str.strip()`. -/
def pySpace (c : Char) : Bool :=
  c == ' ' || c == '\t' || c == '\n' || c == '\r' || c == '\x0b' || c == '\x0c'

/-- Python `str.strip()`: drop surrounding whitespace. -/
def pyStrip (s : String) : String :=
  String.mk (((s.data.dropWhile pySpace).reverse.dropWhile pySpace).reverse)

/-- Split a character list on `'/'`, keeping empty chunks (as `str.split('/')`). -/
def splitSlash (cs : List Char) : List (List Char) :=
  cs.foldr
    (fun c acc =>
      match acc with
      | [] => [[c]]
      | seg :: rest => if c == '/' then [] :: seg :: rest else (c :: seg) :: rest)
    [[]]

/-- Join path segments with `'/'` (rendering of a relative `PosixPath`). -/
def joinSegs : List String → String
  | [] => ""
  | [s] => s
  | s :: rest => s ++ "/" ++ joinSegs rest

/-- Join output lines with a newline, as `"\n".join(...)`. -/
def joinLines : List String → String
  | [] => ""
  | [s] => s
  | s :: rest => s ++ "\n" ++ joinLines rest

/-- Codepoint sequence of a string, the key Python uses for `str` comparison. -/
def strKey (s : String) : List Nat :=
  s.data.map Char.toNat

/-- Lexicographic `≤` on codepoint lists (Python string comparison). -/
def natListLe : List Nat → List Nat → Bool
  | [], _ => true
  | _ :: _, [] => false
  | a :: as, b :: bs =>
    if a < b then true else if b < a then false else natListLe as bs

/-- Python `a <= b` on strings: lexicographic comparison of codepoints. -/
def strLeB (a b : String) : Bool :=
  natListLe (strKey a) (strKey b)

/-- Boolean list-prefix test (used both for segment lists and char lists). -/
def segPrefixB : List String → List String → Bool
  | [], _ => true
  | _ :: _, [] => false
  | a :: as, b :: bs => if a = b then segPrefixB as bs else false

/-- Boolean char-list prefix test. -/
def charPrefixB : List Char → List Char → Bool
  | [], _ => true
  | _ :: _, [] => false
  | a :: as, b :: bs => if a = b then charPrefixB as bs else false

/-- Python `str.endswith(pat)`. -/
def endsWithB (pat s : String) : Bool :=
  charPrefixB pat.data.reverse s.data.reverse

/-- Index of the last `'.'` in a character list, if any. -/
def lastDotAux : List Char → Nat → Option Nat
  | [], _ => none
  | c :: cs, i =>
    match lastDotAux cs (i + 1) with
    | some j => some j
    | none => if c = '.' then some i else none

/-- Embeds `PurePath.with_suffix('')` applied to a file name: strip the final
extension, where a suffix exists only when the last dot is neither at index 0
nor at the final position. -/
def withSuffixEmpty (name : String) : String :=
  let cs := name.data
  match lastDotAux cs 0 with
  | none => name
  | some i => if 0 < i ∧ i + 1 < cs.length then String.mk (cs.take i) else name

/-! ### Path parsing, resolution and validation (`_validate_path`, lines 20-35) -/

/-- Embeds `pathlib.Path(s)` on POSIX: an absolute flag plus the list of parts, with
empty chunks and `"."` chunks dropped and `".."` kept. -/
def parsePath (s : String) : Bool × List String :=
  let cs := s.data
  let abs := match cs with
    | '/' :: _ => true
    | _ => false
  (abs, ((splitSlash cs).map String.mk).filter (fun t => !(t == "" || t == ".")))

/-- Embeds `Path.resolve()` on a symlink-free filesystem: process segments left to
right, `".."` removing the last segment (a no-op at the filesystem root). -/
def resolveSegs (segs : List String) : List String :=
  segs.foldl (fun acc s => if s = ".." then acc.dropLast else acc ++ [s]) []

/-- The canonicalized join `(scratch_dir / Path(p.strip())).resolve()`:
an absolute caller path replaces the sandbox root, as `pathlib`'s `/` does. -/
def canonJoin (root : List String) (p : String) : List String :=
  let pp := parsePath (pyStrip p)
  resolveSegs (if pp.1 then pp.2 else root ++ pp.2)

/-- The two `ValueError`s raised by `_validate_path`. -/
inductive PathErr where
  | invalidPath
  | pathTraversal
  deriving DecidableEq, Repr

/-- Embeds `str(e)` of the corresponding `ValueError`. -/
def errString : PathErr → String
  | PathErr.invalidPath => "Empty path is invalid"
  | PathErr.pathTraversal => "Path traversal attempt detected"

/-- Embeds `_validate_path` (lines 20-35): reject when `Path(p.strip()).parts` is
empty, else resolve the join and require the sandbox root to be a prefix of
it.  On success the result is returned in sandbox-relative coordinates. -/
def validatePath (root : List String) (relativePath : String) :
    Except PathErr (List String) :=
  let pp := parsePath (pyStrip relativePath)
  if pp.1 = false ∧ pp.2 = [] then Except.error PathErr.invalidPath
  else if segPrefixB root (canonJoin root relativePath) then
    Except.ok ((canonJoin root relativePath).drop root.length)
  else Except.error PathErr.pathTraversal

/-! ### Filesystem model -/

/-- A filesystem node: a text file or a directory. -/
inductive Node where
  | file (content : String)
  | dirNode
  deriving DecidableEq, Repr

/-- Sandbox content: an association list from sandbox-relative paths (nonempty
segment lists) to nodes.  The sandbox root itself is implicit and always a
directory (the constructor creates it). -/
abbrev FS := List (List String × Node)

/-- First entry with the given path, if any. -/
def lookupEnt : FS → List String → Option Node
  | [], _ => none
  | e :: rest, q => if e.1 = q then some e.2 else lookupEnt rest q

/-- Lookup with the sandbox root (`[]`) always present as a directory. -/
def lookupFS (fs : FS) (q : List String) : Option Node :=
  if q = [] then some Node.dirNode else lookupEnt fs q

/-- Embeds `Path.exists()`. -/
def existsFS (fs : FS) (q : List String) : Bool :=
  (lookupFS fs q).isSome

/-- Embeds `Path.is_file()`. -/
def isFileFS (fs : FS) (q : List String) : Bool :=
  match lookupFS fs q with
  | some (Node.file _) => true
  | _ => false

/-- Embeds `Path.is_dir()`. -/
def isDirFS (fs : FS) (q : List String) : Bool :=
  match lookupFS fs q with
  | some Node.dirNode => true
  | _ => false

/-- Embeds `Path.write_text(c)`: truncate/create the file at `q` with content `c`. -/
def setFile (fs : FS) (q : List String) (c : String) : FS :=
  (q, Node.file c) :: fs.filter (fun e => decide (e.1 ≠ q))

/-- Embeds `Path.unlink()`. -/
def unlinkFS (fs : FS) (q : List String) : FS :=
  fs.filter (fun e => decide (e.1 ≠ q))

/-- Embeds `shutil.rmtree(q)`: remove `q` and everything below it. -/
def rmtreeFS (fs : FS) (q : List String) : FS :=
  fs.filter (fun e => !(segPrefixB q e.1))

/-- Embeds `Path.mkdir(parents=True, exist_ok=True)` walking the missing components
of `done ++ todo` top-down: an existing directory component is kept, a missing
one is created, and a file component raises (`mkdir` fails without having
created anything deeper, since creation proceeds shallow-first). -/
def mkdirPGo : FS → List String → List String → Except String FS
  | fs, _, [] => Except.ok fs
  | fs, done, s :: rest =>
    match lookupFS fs (done ++ [s]) with
    | some (Node.file _) =>
      Except.error ("File exists: " ++ joinSegs (done ++ [s]))
    | some Node.dirNode => mkdirPGo fs (done ++ [s]) rest
    | none => mkdirPGo ((done ++ [s], Node.dirNode) :: fs) (done ++ [s]) rest

/-- Embeds `q.mkdir(parents=True, exist_ok=True)` from the sandbox root. -/
def mkdirP (fs : FS) (q : List String) : Except String FS :=
  mkdirPGo fs [] q

/-- Path rewriting performed by a successful `shutil.move(src, dest)`:
every entry at or below `src` is re-rooted at `dest`. -/
def moveMap (fs : FS) (src dest : List String) : FS :=
  fs.map (fun e =>
    if segPrefixB src e.1 then (dest ++ e.1.drop src.length, e.2) else e)

/-- Embeds `shutil.move(src, dest)` with `dest` not existing: raises when a directory
is moved into itself, otherwise re-roots the `src` subtree at `dest`. -/
def moveFS (fs : FS) (src dest : List String) : Except String FS :=
  if isDirFS fs src = true ∧ segPrefixB src dest = true ∧ src ≠ dest then
    Except.error "Cannot move a directory into itself"
  else Except.ok (moveMap fs src dest)

/-! ### Store operations (`AssistantFnc`, lines 38-240) -/

/-- Embeds `create_file` (lines 39-55). -/
def createFile (root : List String) (fs : FS) (filePath content : String) :
    FS × String :=
  match validatePath root filePath with
  | Except.error e => (fs, "Error creating " ++ filePath ++ ": " ++ errString e)
  | Except.ok q =>
    match mkdirP fs q.dropLast with
    | Except.error m => (fs, "Error creating " ++ filePath ++ ": " ++ m)
    | Except.ok fs1 =>
      if existsFS fs1 q then (fs1, "File " ++ filePath ++ " already exists")
      else (setFile fs1 q content, "Created " ++ filePath)

/-- Embeds `read_file` (lines 85-99). -/
def readFile (root : List String) (fs : FS) (filePath : String) : String :=
  match validatePath root filePath with
  | Except.error _ => "Could not read " ++ filePath
  | Except.ok q =>
    if existsFS fs q = false then "File " ++ filePath ++ " not found."
    else if isFileFS fs q = false then "Path " ++ filePath ++ " is not a file."
    else
      match lookupFS fs q with
      | some (Node.file c) => "Contents of " ++ filePath ++ ":\n" ++ c
      | _ => "Could not read " ++ filePath

/-- Embeds `update_file` (lines 201-217). -/
def updateFile (root : List String) (fs : FS) (filePath newContent : String) :
    FS × String :=
  match validatePath root filePath with
  | Except.error _ => (fs, "Failed to update " ++ filePath)
  | Except.ok q =>
    if existsFS fs q = false then (fs, "File " ++ filePath ++ " not found")
    else if isFileFS fs q = false then (fs, "Path " ++ filePath ++ " is not a file")
    else (setFile fs q newContent, "Updated " ++ filePath)

/-- Embeds `delete_file` (lines 220-235). -/
def deleteFile (root : List String) (fs : FS) (filePath : String) :
    FS × String :=
  match validatePath root filePath with
  | Except.error _ => (fs, "Failed to delete " ++ filePath)
  | Except.ok q =>
    if existsFS fs q = false then (fs, "File " ++ filePath ++ " not found")
    else if isFileFS fs q = false then (fs, "Path " ++ filePath ++ " is not a file")
    else (unlinkFS fs q, "Deleted " ++ filePath)

/-- Embeds `create_folder` (lines 103-121).  On the overwrite branch `rmtree` has
already mutated the state when a later `mkdir` failure is caught. -/
def createFolder (root : List String) (fs : FS) (folderPath : String)
    (overwrite : Bool) : FS × String :=
  match validatePath root folderPath with
  | Except.error _ => (fs, "Failed to create folder " ++ folderPath)
  | Except.ok q =>
    if existsFS fs q then
      if isFileFS fs q then
        (fs, "Path " ++ folderPath ++ " is a file, cannot create folder here.")
      else if overwrite = false then
        (fs, "Folder " ++ folderPath ++ " already exists")
      else
        match mkdirPGo (rmtreeFS fs q) [] q with
        | Except.error _ => (rmtreeFS fs q, "Failed to create folder " ++ folderPath)
        | Except.ok fs2 => (fs2, "Created folder " ++ folderPath)
    else
      match mkdirPGo fs [] q with
      | Except.error _ => (fs, "Failed to create folder " ++ folderPath)
      | Except.ok fs2 => (fs2, "Created folder " ++ folderPath)

/-- Embeds `delete_folder` (lines 160-175). -/
def deleteFolder (root : List String) (fs : FS) (folderPath : String) :
    FS × String :=
  match validatePath root folderPath with
  | Except.error _ => (fs, "Failed to delete folder " ++ folderPath)
  | Except.ok q =>
    if existsFS fs q = false then (fs, "Folder " ++ folderPath ++ " not found")
    else if isDirFS fs q = false then
      (fs, "Path " ++ folderPath ++ " is not a directory")
    else (rmtreeFS fs q, "Deleted folder " ++ folderPath)

/-- Embeds `rename_file` (lines 178-198).  Both paths are validated before any
existence check; `mkdir` of the destination parent happens before the move, so
a failing move leaves the created parent directories behind. -/
def renameFile (root : List String) (fs : FS) (oldPath newPath : String) :
    FS × String :=
  match validatePath root oldPath with
  | Except.error e => (fs, "Failed to rename '" ++ oldPath ++ "': " ++ errString e)
  | Except.ok qo =>
    match validatePath root newPath with
    | Except.error e => (fs, "Failed to rename '" ++ oldPath ++ "': " ++ errString e)
    | Except.ok qn =>
      if existsFS fs qo = false then
        (fs, "Error: Source path '" ++ oldPath ++ "' does not exist")
      else if existsFS fs qn then
        (fs, "Error: Destination path '" ++ newPath ++ "' already exists")
      else
        match mkdirP fs qn.dropLast with
        | Except.error m => (fs, "Failed to rename '" ++ oldPath ++ "': " ++ m)
        | Except.ok fs1 =>
          match moveFS fs1 qo qn with
          | Except.error m => (fs1, "Failed to rename '" ++ oldPath ++ "': " ++ m)
          | Except.ok fs2 =>
            (fs2, "Successfully renamed/moved '" ++ oldPath ++ "' to '" ++ newPath ++ "'")

/-! ### Listing operations -/

/-- Whether an entry is a file (the `path.is_file()` filter of the listings). -/
def isFileEnt (e : List String × Node) : Bool :=
  match e.2 with
  | Node.file _ => true
  | Node.dirNode => false

/-- Embeds `rel_path.with_suffix('')`: strip the final extension of the last segment. -/
def stripLastExt (q : List String) : List String :=
  match q with
  | [] => []
  | _ => q.dropLast ++ [withSuffixEmpty (q.getLast?.getD "")]

/-- Insertion of one element into a `le`-sorted list (stable, as `sorted`). -/
def insertOrd (le : String → String → Bool) (x : String) :
    List String → List String
  | [] => [x]
  | y :: ys => if le x y then x :: y :: ys else y :: insertOrd le x ys

/-- Stable insertion sort, modelling Python's `sorted`. -/
def sortOrd (le : String → String → Bool) (l : List String) : List String :=
  l.foldr (insertOrd le) []

/-- The displayed lines of `list_files` (lines 58-69), before joining. -/
def listFilesLines (fs : FS) : List String :=
  sortOrd strLeB ((fs.filter isFileEnt).map (fun e => joinSegs (stripLastExt e.1)))

/-- Embeds `list_files` (lines 58-69). -/
def listFiles (fs : FS) : String :=
  match listFilesLines fs with
  | [] => "No files found"
  | ls => joinLines ls

/-- The displayed lines of `list_files_with_extensions` (lines 72-82). -/
def listFilesExtLines (fs : FS) : List String :=
  sortOrd strLeB ((fs.filter isFileEnt).map (fun e => joinSegs e.1))

/-- Embeds `list_files_with_extensions` (lines 72-82). -/
def listFilesWithExtensions (fs : FS) : String :=
  match listFilesExtLines fs with
  | [] => "No files found"
  | ls => joinLines ls

/-- Display of one entry in `list_all`: directories get the folder marker. -/
def renderEntry (e : List String × Node) : String :=
  match e.2 with
  | Node.dirNode => joinSegs e.1 ++ " (Folder)"
  | Node.file _ => joinSegs e.1

/-- The `items` list built by `list_all` (lines 130-148): a recursive pass
over everything, then a second pass over root-level entries.  The guard
`path not in items` compares a `Path` object with strings, which is never
equal in Python, so the second pass appends unconditionally. -/
def listAllItems (fs : FS) : List String :=
  fs.map renderEntry ++
    (fs.filter (fun e => decide (e.1.length = 1))).map renderEntry

/-- Sort key order of line 151: `(not x.endswith("(Folder)"), x)`. -/
def keyLe (a b : String) : Bool :=
  if endsWithB "(Folder)" a = endsWithB "(Folder)" b then strLeB a b
  else endsWithB "(Folder)" a

/-- The sorted display lines of `list_all`. -/
def listAllLines (fs : FS) : List String :=
  sortOrd keyLe (listAllItems fs)

/-- Embeds `list_all` (lines 124-157). -/
def listAll (fs : FS) : String :=
  match listAllLines fs with
  | [] => "No files or folders found"
  | ls => joinLines ls

/-! ### State predicates used in the specifications -/

/-- No proper ancestor of `q` is an existing file: the condition under which
`q.parent.mkdir(parents=True, exist_ok=True)` succeeds. -/
def noFileAncestor (fs : FS) (q : List String) : Prop :=
  ∀ i, i < q.length → isFileFS fs (q.take i) = false

/-- No entry lies strictly below `q` (true of a file in any state the
operations produce). -/
def noStrictDescendants (fs : FS) (q : List String) : Prop :=
  ∀ e ∈ fs, segPrefixB q e.1 = true → e.1 = q

instance (fs : FS) (q : List String) : Decidable (noFileAncestor fs q) := by
  unfold noFileAncestor
  infer_instance

instance (fs : FS) (q : List String) : Decidable (noStrictDescendants fs q) := by
  unfold noStrictDescendants
  infer_instance

/-! ### Basic lemmas on segment prefixes and lookups -/

theorem segPrefixB_refl (l : List String) : segPrefixB l l = true := by
  induction l with
  | nil => rfl
  | cons a as ih => simp [segPrefixB, ih]

theorem segPrefixB_append (l t : List String) :
    segPrefixB l (l ++ t) = true := by
  induction l with
  | nil => rfl
  | cons a as ih => simp [segPrefixB, ih]

theorem segPrefixB_length {a b : List String} (h : segPrefixB a b = true) :
    a.length ≤ b.length := by
  induction a generalizing b with
  | nil => simp
  | cons x xs ih =>
    cases b with
    | nil => simp [segPrefixB] at h
    | cons y ys =>
      simp only [segPrefixB] at h
      split at h
      · simpa using ih h
      · simp at h

theorem segPrefixB_eq_take {a b : List String} (h : segPrefixB a b = true) :
    a = b.take a.length := by
  induction a generalizing b with
  | nil => simp
  | cons x xs ih =>
    cases b with
    | nil => simp [segPrefixB] at h
    | cons y ys =>
      simp only [segPrefixB] at h
      split at h
      · rename_i heq
        simpa [heq] using ih h
      · simp at h

theorem segPrefixB_of_take {b : List String} (i : Nat) :
    segPrefixB (b.take i) b = true := by
  induction b generalizing i with
  | nil => simp [segPrefixB]
  | cons y ys ih =>
    cases i with
    | zero => simp [segPrefixB]
    | succ j => simpa [segPrefixB] using ih j

theorem segPrefixB_trans {a b c : List String}
    (h1 : segPrefixB a b = true) (h2 : segPrefixB b c = true) :
    segPrefixB a c = true := by
  induction a generalizing b c with
  | nil => rfl
  | cons x xs ih =>
    cases b with
    | nil => simp [segPrefixB] at h1
    | cons y ys =>
      cases c with
      | nil => simp [segPrefixB] at h2
      | cons z zs =>
        simp only [segPrefixB] at h1 h2 ⊢
        split at h1
        · split at h2
          · rename_i hxy hyz
            simp only [hxy, hyz, if_pos rfl]
            exact ih h1 h2
          · simp at h2
        · simp at h1

@[simp] theorem lookupFS_nil_path (fs : FS) :
    lookupFS fs [] = some Node.dirNode := by
  simp [lookupFS]

theorem lookupFS_cons_ne {p r : List String} {n : Node} {fs : FS}
    (h : p ≠ r) : lookupFS ((p, n) :: fs) r = lookupFS fs r := by
  by_cases hr : r = []
  · subst hr; simp [lookupFS]
  · simp [lookupFS, hr, lookupEnt, h]

theorem lookupEnt_isSome_of_mem {e : List String × Node} {fs : FS}
    (h : e ∈ fs) : (lookupEnt fs e.1).isSome = true := by
  induction fs with
  | nil => simp at h
  | cons a rest ih =>
    rcases List.mem_cons.mp h with h | h
    · subst h; simp [lookupEnt]
    · by_cases ha : a.1 = e.1
      · simp [lookupEnt, ha]
      · simpa [lookupEnt, ha] using ih h

theorem lookupEnt_filter_ne {q r : List String} (h : r ≠ q) (fs : FS) :
    lookupEnt (fs.filter (fun e => decide (e.1 ≠ q))) r = lookupEnt fs r := by
  induction fs with
  | nil => rfl
  | cons a rest ih =>
    by_cases ha : a.1 = q
    · have hqr : ¬ q = r := fun hh => h hh.symm
      have hne : (decide (a.1 ≠ q)) = false := by simp [ha]
      simp only [List.filter_cons, hne, Bool.false_eq_true, if_false, lookupEnt,
        ha, if_neg hqr]
      simpa using ih
    · have hkeep : (decide (a.1 ≠ q)) = true := by simp [ha]
      simp only [List.filter_cons, hkeep, if_true, lookupEnt]
      split
      · rfl
      · exact ih

theorem lookupFS_filter_ne {q r : List String} {fs : FS} (h : r ≠ q) :
    lookupFS (fs.filter (fun e => decide (e.1 ≠ q))) r = lookupFS fs r := by
  by_cases hr : r = []
  · subst hr; simp [lookupFS]
  · simp only [lookupFS, hr, if_neg, ite_false]
    exact lookupEnt_filter_ne h fs

/-! ### Behaviour of `mkdir(parents=True, exist_ok=True)` -/

/-- Master specification of `mkdirPGo`: when no intermediate component is an
existing file, it succeeds; it preserves every present entry, touches no path
longer than the components it walks, leaves every walked component a
directory, and only ever adds directory entries at walked components. -/
theorem mkdirPGo_spec (rest : List String) :
    ∀ (fs : FS) (done : List String),
      lookupFS fs done = some Node.dirNode →
      (∀ t, segPrefixB t rest = true → t ≠ [] → isFileFS fs (done ++ t) = false) →
      ∃ fs1, mkdirPGo fs done rest = Except.ok fs1 ∧
        (∀ r n, lookupFS fs r = some n → lookupFS fs1 r = some n) ∧
        (∀ r, done.length + rest.length < r.length →
          lookupFS fs1 r = lookupFS fs r) ∧
        (∀ i, i ≤ rest.length →
          lookupFS fs1 (done ++ rest.take i) = some Node.dirNode) ∧
        (∀ e, e ∈ fs1 → e ∈ fs ∨
          ∃ i, 0 < i ∧ i ≤ rest.length ∧ e = (done ++ rest.take i, Node.dirNode)) := by
  induction rest with
  | nil =>
    intro fs done hdone _
    refine ⟨fs, rfl, fun r n h => h, fun r _ => rfl, ?_, fun e he => Or.inl he⟩
    intro i hi
    have : i = 0 := Nat.le_zero.mp hi
    subst this
    simpa using hdone
  | cons s rest' ih =>
    intro fs done hdone hfile
    have hs : segPrefixB [s] (s :: rest') = true := by simp [segPrefixB]
    cases hcur : lookupFS fs (done ++ [s]) with
    | some n =>
      cases n with
      | file c =>
        exfalso
        have := hfile [s] hs (by simp)
        rw [isFileFS, hcur] at this
        simp at this
      | dirNode =>
        have hfile' : ∀ t, segPrefixB t rest' = true → t ≠ [] →
            isFileFS fs ((done ++ [s]) ++ t) = false := by
          intro t ht htne
          have : segPrefixB (s :: t) (s :: rest') = true := by
            simp [segPrefixB, ht]
          have h2 := hfile (s :: t) this (by simp)
          simpa [List.append_assoc] using h2
        obtain ⟨fs1, hrun, hpres, hlong, htake, hmem⟩ := ih fs (done ++ [s]) hcur hfile'
        refine ⟨fs1, ?_, hpres, ?_, ?_, ?_⟩
        · simpa [mkdirPGo, hcur] using hrun
        · intro r hr
          apply hlong
          simp at hr ⊢
          omega
        · intro i hi
          cases i with
          | zero =>
            simpa using hpres done Node.dirNode hdone
          | succ j =>
            have := htake j (by simpa using hi)
            simpa [List.append_assoc] using this
        · intro e he
          rcases hmem e he with h | ⟨i, hi0, hile, hei⟩
          · exact Or.inl h
          · refine Or.inr ⟨i + 1, by omega, by simpa using hile, ?_⟩
            simpa [List.append_assoc] using hei
    | none =>
      have hcurne : (done ++ [s]) ≠ [] := by simp
      have hdone2 : lookupFS ((done ++ [s], Node.dirNode) :: fs) (done ++ [s]) =
          some Node.dirNode := by
        simp [lookupFS, hcurne, lookupEnt]
      have hfile' : ∀ t, segPrefixB t rest' = true → t ≠ [] →
          isFileFS ((done ++ [s], Node.dirNode) :: fs) ((done ++ [s]) ++ t) = false := by
        intro t ht htne
        have hne : (done ++ [s]) ≠ (done ++ [s]) ++ t := by
          intro hh
          have h0 : (done ++ [s]) ++ [] = (done ++ [s]) ++ t := by simpa using hh
          exact htne (List.append_cancel_left h0).symm
        rw [isFileFS, lookupFS_cons_ne hne]
        have : segPrefixB (s :: t) (s :: rest') = true := by
          simp [segPrefixB, ht]
        have h2 := hfile (s :: t) this (by simp)
        rw [isFileFS] at h2
        simpa [List.append_assoc] using h2
      obtain ⟨fs1, hrun, hpres, hlong, htake, hmem⟩ :=
        ih ((done ++ [s], Node.dirNode) :: fs) (done ++ [s]) hdone2 hfile'
      refine ⟨fs1, ?_, ?_, ?_, ?_, ?_⟩
      · simpa [mkdirPGo, hcur] using hrun
      · intro r n hr
        have hrne : (done ++ [s]) ≠ r := by
          intro hh
          rw [hh] at hcur
          rw [hcur] at hr
          exact Option.noConfusion hr
        exact hpres r n (by rw [lookupFS_cons_ne hrne]; exact hr)
      · intro r hr
        simp only [List.length_cons] at hr
        have h1 : (done ++ [s]).length + rest'.length < r.length := by
          simp
          omega
        have hrne : (done ++ [s]) ≠ r := by
          intro hh
          have := congrArg List.length hh
          simp at this h1
          omega
        rw [hlong r h1, lookupFS_cons_ne hrne]
      · intro i hi
        cases i with
        | zero =>
          have hdne : (done ++ [s]) ≠ done := by
            intro hh
            have := congrArg List.length hh
            simp at this
          have : lookupFS ((done ++ [s], Node.dirNode) :: fs) done =
              some Node.dirNode := by
            rw [lookupFS_cons_ne hdne]; exact hdone
          simpa using hpres done Node.dirNode this
        | succ j =>
          have := htake j (by simpa using hi)
          simpa [List.append_assoc] using this
      · intro e he
        rcases hmem e he with h | ⟨i, hi0, hile, hei⟩
        · rcases List.mem_cons.mp h with h | h
          · refine Or.inr ⟨1, by omega, by simp, ?_⟩
            simpa using h
          · exact Or.inl h
        · refine Or.inr ⟨i + 1, by omega, by simpa using hile, ?_⟩
          simpa [List.append_assoc] using hei

/-- When every walked component already is a directory, `mkdir` changes
nothing. -/
theorem mkdirPGo_noop (rest : List String) :
    ∀ (fs : FS) (done : List String),
      (∀ i, i < rest.length →
        lookupFS fs (done ++ rest.take (i + 1)) = some Node.dirNode) →
      mkdirPGo fs done rest = Except.ok fs := by
  induction rest with
  | nil => intro fs done _; rfl
  | cons s rest' ih =>
    intro fs done h
    have h0 : lookupFS fs (done ++ [s]) = some Node.dirNode := by
      simpa using h 0 (by simp)
    rw [mkdirPGo, h0]
    apply ih
    intro i hi
    have := h (i + 1) (by simpa using Nat.succ_lt_succ hi)
    simpa [List.append_assoc] using this

/-- Embeds `full_path.parent.mkdir(parents=True, exist_ok=True)` under the
no-file-ancestor condition: success, preservation of present entries, the
target's own lookup untouched, all parent components directories afterwards,
and only directory insertions at parent components. -/
theorem mkdirP_parent_spec (fs : FS) (q : List String)
    (hnf : noFileAncestor fs q) :
    ∃ fs1, mkdirP fs q.dropLast = Except.ok fs1 ∧
      (∀ r n, lookupFS fs r = some n → lookupFS fs1 r = some n) ∧
      lookupFS fs1 q = lookupFS fs q ∧
      (∀ i, i ≤ q.dropLast.length →
        lookupFS fs1 (q.dropLast.take i) = some Node.dirNode) ∧
      (∀ e, e ∈ fs1 → e ∈ fs ∨
        ∃ i, 0 < i ∧ i ≤ q.dropLast.length ∧
          e = (q.dropLast.take i, Node.dirNode)) := by
  have hfile : ∀ t, segPrefixB t q.dropLast = true → t ≠ [] →
      isFileFS fs ([] ++ t) = false := by
    intro t ht htne
    have htk := segPrefixB_eq_take ht
    have hlen : t.length ≤ q.dropLast.length := segPrefixB_length ht
    have hdl : q.dropLast = q.take (q.length - 1) := List.dropLast_eq_take q
    have htlen : 0 < t.length := by
      cases t with
      | nil => exact absurd rfl htne
      | cons a as => simp
    have hql : q.dropLast.length = q.length - 1 := by simp
    have ht2 : t = q.take t.length := by
      conv_lhs => rw [htk]
      rw [hdl, List.take_take, Nat.min_eq_left (by omega)]
    have hlt : t.length < q.length := by omega
    rw [List.nil_append, ht2]
    exact hnf t.length hlt
  obtain ⟨fs1, hrun, hpres, hlong, htake, hmem⟩ :=
    mkdirPGo_spec q.dropLast fs [] (by simp) hfile
  refine ⟨fs1, hrun, hpres, ?_, ?_, ?_⟩
  · by_cases hq : q = []
    · subst hq; simp
    · apply hlong
      have : q.dropLast.length = q.length - 1 := by simp
      have : 0 < q.length := List.length_pos.mpr hq
      simp
      omega
  · intro i hi
    simpa using htake i hi
  · intro e he
    rcases hmem e he with h | ⟨i, hi0, hile, hei⟩
    · exact Or.inl h
    · exact Or.inr ⟨i, hi0, hile, by simpa using hei⟩

/-- A successful `create_file`: with the target absent and no file ancestor,
parent directories are created, the file is written, and the success message
returned. -/
theorem createFile_success (root : List String) (fs : FS) (p c : String)
    (q : List String) (h1 : validatePath root p = Except.ok q)
    (h2 : noFileAncestor fs q) (h3 : lookupFS fs q = none) :
    ∃ fs1, mkdirP fs q.dropLast = Except.ok fs1 ∧
      createFile root fs p c = (setFile fs1 q c, "Created " ++ p) ∧
      lookupFS (setFile fs1 q c) q = some (Node.file c) ∧
      (∀ i, i ≤ q.dropLast.length →
        lookupFS fs1 (q.dropLast.take i) = some Node.dirNode) := by
  have hqne : q ≠ [] := by
    intro hh
    rw [hh, lookupFS_nil_path] at h3
    exact Option.noConfusion h3
  obtain ⟨fs1, hrun, _, hsame, htake, _⟩ := mkdirP_parent_spec fs q h2
  have hnone : lookupFS fs1 q = none := by rw [hsame]; exact h3
  refine ⟨fs1, hrun, ?_, ?_, htake⟩
  · have hex : existsFS fs1 q = false := by simp [existsFS, hnone]
    simp only [createFile, h1, hrun, hex]
    simp
  · simp [setFile, lookupFS, hqne, lookupEnt]

/-! ### Claim C2 -/

/-- C2 counterexample: the input `"a/.."` trims to a string that normalizes
to the sandbox root, yet validation does not fail with `InvalidPath` — it
accepts the path with the root itself as result (`parts` is nonempty, and the
resolved join equals the root, which `is_relative_to` accepts) — and
`delete_folder("a/..")` then acts on the sandbox root as its target, deleting
the sandbox's entire contents. -/
theorem C2_counterexample_root_path_accepted :
    validatePath ["scratchpad"] "a/.." = Except.ok [] ∧
    deleteFolder ["scratchpad"] [(["x"], Node.file "hi")] "a/.." =
      ([], "Deleted folder a/..") := by
  constructor <;> rfl

/-- C2 amended: validation fails with `InvalidPath` exactly for inputs whose
trimmed string parses to zero path parts (the empty string, whitespace, or
`.`-only forms) — every other input gets through that guard — and any such
other input whose canonicalized join with the (canonical) sandbox root equals
the root itself, such as `"a/.."`, is accepted with the root as result, so
operations can act on the root itself. -/
theorem C2_amended_invalid_iff_partless (root : List String) (s : String) :
    (validatePath root s = Except.error PathErr.invalidPath ↔
      (parsePath (pyStrip s)).1 = false ∧ (parsePath (pyStrip s)).2 = []) ∧
    (resolveSegs root = root → canonJoin root s = root →
      ¬((parsePath (pyStrip s)).1 = false ∧ (parsePath (pyStrip s)).2 = []) →
      validatePath root s = Except.ok []) := by
  constructor
  · constructor
    · intro hv
      by_cases hc : (parsePath (pyStrip s)).1 = false ∧
          (parsePath (pyStrip s)).2 = []
      · exact hc
      · exfalso
        simp only [validatePath] at hv
        rw [if_neg hc] at hv
        by_cases hpre : segPrefixB root (canonJoin root s) = true
        · rw [if_pos hpre] at hv
          exact Except.noConfusion hv
        · rw [if_neg hpre] at hv
          have := Except.error.inj hv
          exact PathErr.noConfusion this
    · intro h
      simp [validatePath, h.1, h.2]
  · intro hroot hcj hnp
    simp only [validatePath]
    rw [if_neg hnp, hcj, if_pos (segPrefixB_refl root)]
    rw [List.drop_length]

/-- C2 amended, witness: the partless input `" . "` is rejected as
`InvalidPath`, while `"a/.."` — nonempty, normalizing to the root — is
accepted with the sandbox root as its result. -/
theorem C2_amended_invalid_iff_partless_witness :
    validatePath ["scratchpad"] " . " = Except.error PathErr.invalidPath ∧
    validatePath ["scratchpad"] "a/.." = Except.ok [] :=
  ⟨(C2_amended_invalid_iff_partless ["scratchpad"] " . ").1.mpr
      (by constructor <;> rfl),
   (C2_amended_invalid_iff_partless ["scratchpad"] "a/..").2
      (by rfl) (by rfl) (by decide)⟩

/-! ### Claim C4 -/

/-- C4 counterexample: `create_file` on an existing directory `d` returns the
very same "File d already exists" message as on an existing file `d` — there
is no distinct path error for the directory case. -/
theorem C4_counterexample_dir_same_message :
    createFile ["r"] [(["d"], Node.dirNode)] "d" "c" =
      ([(["d"], Node.dirNode)], "File d already exists") ∧
    createFile ["r"] [(["d"], Node.file "x")] "d" "c" =
      ([(["d"], Node.file "x")], "File d already exists") := by
  constructor <;> rfl

/-- C4 amended: for every in-sandbox path whose target is an existing
directory (and whose ancestors are not files), `create_file` returns the same
plain "already exists" result that an existing file produces. -/
theorem C4_amended_dir_target_reports_already_exists (root : List String)
    (fs : FS) (p c : String) (q : List String)
    (h1 : validatePath root p = Except.ok q)
    (h2 : lookupFS fs q = some Node.dirNode) (h3 : noFileAncestor fs q) :
    ∃ fs1, createFile root fs p c = (fs1, "File " ++ p ++ " already exists") ∧
      lookupFS fs1 q = some Node.dirNode := by
  obtain ⟨fs1, hrun, _, hsame, _, _⟩ := mkdirP_parent_spec fs q h3
  have hl : lookupFS fs1 q = some Node.dirNode := by rw [hsame]; exact h2
  have hex : existsFS fs1 q = true := by simp [existsFS, hl]
  refine ⟨fs1, ?_, hl⟩
  simp only [createFile, h1, hrun, hex]
  simp

/-- C4 amended, witness: concrete instance with directory `d`. -/
theorem C4_amended_dir_target_reports_already_exists_witness :
    ∃ fs1, createFile ["r"] [(["d"], Node.dirNode)] "d" "c" =
        (fs1, "File d already exists") ∧
      lookupFS fs1 ["d"] = some Node.dirNode :=
  C4_amended_dir_target_reports_already_exists ["r"] [(["d"], Node.dirNode)]
    "d" "c" ["d"] (by rfl) (by rfl) (by decide)

/-! ### Claim C5 -/

/-- C5, the code bug exhibited: with a single root-level file `a.txt` the
output of `list_all` contains the entry twice.  The second, root-level pass
guards with `path not in items`, but `items` holds strings while `path` is a
path object, so the test never matches and every root-level entry is appended
a second time. -/
theorem C5_root_entries_listed_twice :
    listAll [(["a.txt"], Node.file "x")] = "a.txt\na.txt" ∧
    listAllItems [(["a.txt"], Node.file "x")] = ["a.txt", "a.txt"] := by
  constructor <;> rfl

/-! ### Claim C7 -/

/-- C7 counterexample: with `d` an existing file, the path `d/f` resolves
inside the sandbox and its target does not exist, yet
`create_file("d/f", c)` fails (the parent `mkdir` raises on the file
component) and the subsequent `read_file("d/f")` reports "not found" instead
of returning the content. -/
theorem C7_counterexample_parent_is_file :
    validatePath ["r"] "d/f" = Except.ok ["d", "f"] ∧
    lookupFS [(["d"], Node.file "x")] ["d", "f"] = none ∧
    (createFile ["r"] [(["d"], Node.file "x")] "d/f" "c").2 =
      "Error creating d/f: File exists: d" ∧
    readFile ["r"] (createFile ["r"] [(["d"], Node.file "x")] "d/f" "c").1
      "d/f" = "File d/f not found." := by
  refine ⟨?_, ?_, ?_, ?_⟩ <;> rfl

/-- C7 amended: the round trip holds under the additional condition that no
ancestor of the target is an existing file (so the parent `mkdir` succeeds):
`create_file(p, c)` then returns "Created p" and `read_file(p)` returns the
content `c` prefixed with the path. -/
theorem C7_amended_create_read_roundtrip (root : List String) (fs : FS)
    (p c : String) (q : List String)
    (h1 : validatePath root p = Except.ok q) (h2 : noFileAncestor fs q)
    (h3 : lookupFS fs q = none) :
    ∃ fs1, createFile root fs p c = (fs1, "Created " ++ p) ∧
      readFile root fs1 p = "Contents of " ++ p ++ ":\n" ++ c := by
  obtain ⟨fs0, _, hcf, hlook, _⟩ := createFile_success root fs p c q h1 h2 h3
  refine ⟨setFile fs0 q c, hcf, ?_⟩
  have hex : existsFS (setFile fs0 q c) q = true := by
    simp [existsFS, hlook]
  have hisf : isFileFS (setFile fs0 q c) q = true := by
    simp [isFileFS, hlook]
  simp [readFile, h1, hex, hisf, hlook]

/-- C7 amended, witness: creating `s/t.txt` in an empty sandbox and reading
it back. -/
theorem C7_amended_create_read_roundtrip_witness :
    ∃ fs1, createFile ["r"] [] "s/t.txt" "hello" = (fs1, "Created s/t.txt") ∧
      readFile ["r"] fs1 "s/t.txt" = "Contents of s/t.txt:\nhello" :=
  C7_amended_create_read_roundtrip ["r"] [] "s/t.txt" "hello" ["s", "t.txt"]
    (by rfl) (by decide) (by rfl)

/-! ### Claim C6 -/

/-- C6: once `create_file(p, c1)` has succeeded, a second
`create_file(p, c2)` returns "already exists", leaves the state unchanged,
and the file still holds `c1` — no overwrite. -/
theorem C6_create_twice_no_overwrite (root : List String) (fs : FS)
    (p c1 c2 : String) (q : List String)
    (h1 : validatePath root p = Except.ok q) (h2 : noFileAncestor fs q)
    (h3 : lookupFS fs q = none) :
    ∃ fs1, createFile root fs p c1 = (fs1, "Created " ++ p) ∧
      createFile root fs1 p c2 = (fs1, "File " ++ p ++ " already exists") ∧
      lookupFS fs1 q = some (Node.file c1) := by
  obtain ⟨fs0, _, hcf, hlook, htake⟩ := createFile_success root fs p c1 q h1 h2 h3
  have hqne : q ≠ [] := by
    intro hh
    rw [hh, lookupFS_nil_path] at h3
    exact Option.noConfusion h3
  have hqpos : 0 < q.length := List.length_pos.mpr hqne
  refine ⟨setFile fs0 q c1, hcf, ?_, hlook⟩
  have hnoop : mkdirP (setFile fs0 q c1) q.dropLast =
      Except.ok (setFile fs0 q c1) := by
    rw [mkdirP]
    apply mkdirPGo_noop
    intro i hi
    have hdl : q.dropLast.length = q.length - 1 := by simp
    have hlt : (q.dropLast.take (i + 1)).length < q.length := by
      simp [List.length_take]
      omega
    have hrq : q.dropLast.take (i + 1) ≠ q := by
      intro hh
      rw [hh] at hlt
      omega
    have h0 := htake (i + 1) (by omega)
    rw [List.nil_append, setFile, lookupFS_cons_ne (fun hh => hrq hh.symm),
      lookupFS_filter_ne hrq]
    exact h0
  have hex : existsFS (setFile fs0 q c1) q = true := by
    simp [existsFS, hlook]
  simp only [createFile, h1, hnoop, hex]
  simp

/-- C6, witness: creating `s/t.txt` twice in an empty sandbox. -/
theorem C6_create_twice_no_overwrite_witness :
    ∃ fs1, createFile ["r"] [] "s/t.txt" "c1" = (fs1, "Created s/t.txt") ∧
      createFile ["r"] fs1 "s/t.txt" "c2" =
        (fs1, "File s/t.txt already exists") ∧
      lookupFS fs1 ["s", "t.txt"] = some (Node.file "c1") :=
  C6_create_twice_no_overwrite ["r"] [] "s/t.txt" "c1" "c2" ["s", "t.txt"]
    (by rfl) (by decide) (by rfl)

/-! ### Behaviour of `shutil.move` path rewriting -/

theorem segPrefixB_lt_length {a b : List String} (h : segPrefixB a b = true)
    (hne : a ≠ b) : a.length < b.length := by
  have hle := segPrefixB_length h
  rcases Nat.lt_or_ge a.length b.length with hlt | hge
  · exact hlt
  · exfalso
    have heq : a.length = b.length := le_antisymm hle hge
    have htk := segPrefixB_eq_take h
    rw [heq, List.take_length] at htk
    exact hne htk

/-- After the move rewriting, the destination path holds the moved file. -/
theorem lookupEnt_moveMap_dest {qo qn : List String} {c : String} :
    ∀ fs : FS, lookupEnt fs qo = some (Node.file c) →
      lookupEnt fs qn = none →
      lookupEnt (moveMap fs qo qn) qn = some (Node.file c) := by
  intro fs
  induction fs with
  | nil =>
    intro h1 _
    exact absurd h1 (by simp [lookupEnt])
  | cons e rest ih =>
    intro h1 h2
    have hen : e.1 ≠ qn := by
      intro hh
      rw [lookupEnt, if_pos hh] at h2
      exact Option.noConfusion h2
    have h2' : lookupEnt rest qn = none := by
      rw [lookupEnt, if_neg hen] at h2
      exact h2
    by_cases he : e.1 = qo
    · have hec : e.2 = Node.file c := by
        rw [lookupEnt, if_pos he] at h1
        exact Option.some.inj h1
      simp [moveMap, he, segPrefixB_refl, List.drop_length, lookupEnt, hec]
    · have h1' : lookupEnt rest qo = some (Node.file c) := by
        rw [lookupEnt, if_neg he] at h1
        exact h1
      have hpath :
          (if segPrefixB qo e.1 = true then
            (qn ++ e.1.drop qo.length, e.2) else e).1 ≠ qn := by
        by_cases hp : segPrefixB qo e.1 = true
        · rw [if_pos hp]
          have hlt := segPrefixB_lt_length hp (fun hh => he hh.symm)
          intro hh
          have hlen := congrArg List.length hh
          simp [List.length_drop] at hlen
          omega
        · rw [if_neg hp]
          exact hen
      rw [moveMap, List.map_cons, lookupEnt, if_neg hpath]
      simpa [moveMap] using ih h1' h2'

/-- After the move rewriting, nothing remains at the source path. -/
theorem lookupEnt_moveMap_src {qo qn : List String} (hqn : qn ≠ qo) :
    ∀ fs : FS, noStrictDescendants fs qo →
      lookupEnt (moveMap fs qo qn) qo = none := by
  intro fs
  induction fs with
  | nil => intro _; rfl
  | cons e rest ih =>
    intro h3
    have h3r : noStrictDescendants rest qo :=
      fun x hx hp => h3 x (List.mem_cons_of_mem e hx) hp
    have hpath :
        (if segPrefixB qo e.1 = true then
          (qn ++ e.1.drop qo.length, e.2) else e).1 ≠ qo := by
      by_cases hp : segPrefixB qo e.1 = true
      · have he : e.1 = qo := h3 e (List.mem_cons_self e rest) hp
        rw [if_pos hp, he]
        simpa [List.drop_length] using hqn
      · rw [if_neg hp]
        intro hh
        exact hp (by rw [hh]; exact segPrefixB_refl qo)
    rw [moveMap, List.map_cons, lookupEnt, if_neg hpath]
    simpa [moveMap] using ih h3r

theorem lookupFS_moveMap_dest {fs : FS} {qo qn : List String} {c : String}
    (h1 : lookupFS fs qo = some (Node.file c)) (h2 : lookupFS fs qn = none) :
    lookupFS (moveMap fs qo qn) qn = some (Node.file c) := by
  have hqn : qn ≠ [] := by
    intro hh
    rw [hh, lookupFS_nil_path] at h2
    exact Option.noConfusion h2
  have hqo : qo ≠ [] := by
    intro hh
    rw [hh, lookupFS_nil_path] at h1
    simp at h1
  rw [lookupFS, if_neg hqn]
  rw [lookupFS, if_neg hqo] at h1
  rw [lookupFS, if_neg hqn] at h2
  exact lookupEnt_moveMap_dest fs h1 h2

theorem lookupFS_moveMap_src {fs : FS} {qo qn : List String}
    (hqo : qo ≠ []) (hqn : qn ≠ qo) (h3 : noStrictDescendants fs qo) :
    lookupFS (moveMap fs qo qn) qo = none := by
  rw [lookupFS, if_neg hqo]
  exact lookupEnt_moveMap_src hqn fs h3

/-! ### Claim C8 -/

/-- C8 counterexample: with `d` an existing (empty) directory and `e` absent,
`rename_file("d", "e")` succeeds, but `read_file("e")` afterwards does not
succeed with the original content — the target is a directory, so it reports
"is not a file". -/
theorem C8_counterexample_directory_source :
    lookupFS [(["d"], Node.dirNode)] ["d"] = some Node.dirNode ∧
    lookupFS [(["d"], Node.dirNode)] ["e"] = none ∧
    renameFile ["r"] [(["d"], Node.dirNode)] "d" "e" =
      ([(["e"], Node.dirNode)], "Successfully renamed/moved 'd' to 'e'") ∧
    readFile ["r"] [(["e"], Node.dirNode)] "e" = "Path e is not a file." := by
  refine ⟨?_, ?_, ?_, ?_⟩ <;> rfl

/-- C8 amended: restricted to an old target that is an existing *file* (with
the destination absent, no file among the destination's ancestors, and no
entries strictly below the source), `rename_file` succeeds, creates the
destination's parents, `read_file(new)` then returns the original content and
`read_file(old)` reports not found; and whenever the destination target
already exists, `rename_file` fails with the "already exists" error and moves
nothing. -/
theorem C8_amended_rename_moves_file (root : List String) (fs : FS)
    (pOld pNew c : String) (qo qn : List String)
    (h1 : validatePath root pOld = Except.ok qo)
    (h2 : validatePath root pNew = Except.ok qn)
    (h3 : lookupFS fs qo = some (Node.file c))
    (h4 : lookupFS fs qn = none)
    (h5 : noFileAncestor fs qn)
    (h6 : noStrictDescendants fs qo) :
    (∃ fs2, renameFile root fs pOld pNew =
        (fs2, "Successfully renamed/moved '" ++ pOld ++ "' to '" ++ pNew ++ "'") ∧
      readFile root fs2 pNew = "Contents of " ++ pNew ++ ":\n" ++ c ∧
      readFile root fs2 pOld = "File " ++ pOld ++ " not found.") ∧
    (∀ fs' : FS, existsFS fs' qo = true → existsFS fs' qn = true →
      renameFile root fs' pOld pNew =
        (fs', "Error: Destination path '" ++ pNew ++ "' already exists")) := by
  have hqo : qo ≠ [] := by
    intro hh
    rw [hh, lookupFS_nil_path] at h3
    simp at h3
  have hqn : qn ≠ qo := by
    intro hh
    rw [hh, h3] at h4
    exact Option.noConfusion h4
  constructor
  · obtain ⟨fs1, hrun, hpres, hsame, _, hmem⟩ := mkdirP_parent_spec fs qn h5
    have h3' : lookupFS fs1 qo = some (Node.file c) := hpres qo _ h3
    have h4' : lookupFS fs1 qn = none := by rw [hsame]; exact h4
    have h6' : noStrictDescendants fs1 qo := by
      intro e he hp
      rcases hmem e he with hin | ⟨i, hi0, hile, hei⟩
      · exact h6 e hin hp
      · exfalso
        have hpath : e.1 = qn.dropLast.take i := by rw [hei]
        have hpre1 : segPrefixB e.1 qn.dropLast = true := by
          rw [hpath]; exact segPrefixB_of_take i
        have hpre2 : segPrefixB qn.dropLast qn = true := by
          rw [List.dropLast_eq_take]; exact segPrefixB_of_take (qn.length - 1)
        have hpre3 : segPrefixB qo qn = true :=
          segPrefixB_trans (segPrefixB_trans hp hpre1) hpre2
        have hqolt : qo.length < qn.length := by
          have h1l := segPrefixB_length hp
          have h2l := segPrefixB_length hpre1
          have : qn.dropLast.length = qn.length - 1 := by simp
          have hqnne : qn ≠ [] := by
            intro hh
            rw [hh, lookupFS_nil_path] at h4
            exact Option.noConfusion h4
          have : 0 < qn.length := List.length_pos.mpr hqnne
          omega
        have hqoeq : qo = qn.take qo.length := segPrefixB_eq_take hpre3
        have hfile := h5 qo.length hqolt
        rw [← hqoeq, isFileFS, h3] at hfile
        simp at hfile
    have hexo : existsFS fs qo = true := by simp [existsFS, h3]
    have hexn : existsFS fs qn = false := by simp [existsFS, h4]
    have hmove : moveFS fs1 qo qn = Except.ok (moveMap fs1 qo qn) := by
      rw [moveFS, if_neg]
      intro hcon
      rcases hcon with ⟨hd, _⟩
      rw [isDirFS, h3'] at hd
      exact Bool.noConfusion hd
    refine ⟨moveMap fs1 qo qn, ?_, ?_, ?_⟩
    · simp only [renameFile, h1, h2, hexo, hexn, hrun, hmove]
      simp
    · have hdest := lookupFS_moveMap_dest h3' h4'
      have hex2 : existsFS (moveMap fs1 qo qn) qn = true := by
        simp [existsFS, hdest]
      have hif2 : isFileFS (moveMap fs1 qo qn) qn = true := by
        simp [isFileFS, hdest]
      simp [readFile, h2, hex2, hif2, hdest]
    · have hsrc := lookupFS_moveMap_src hqo hqn h6'
      have hex3 : existsFS (moveMap fs1 qo qn) qo = false := by
        simp [existsFS, hsrc]
      simp [readFile, h1, hex3]
  · intro fs' hexo hexn
    simp only [renameFile, h1, h2, hexo, hexn]
    simp

/-- C8 amended, witness: moving `x.txt` to `y/z.txt` and the already-exists
failure, at a concrete state. -/
theorem C8_amended_rename_moves_file_witness :
    (∃ fs2, renameFile ["r"] [(["x.txt"], Node.file "hello")] "x.txt" "y/z.txt" =
        (fs2, "Successfully renamed/moved 'x.txt' to 'y/z.txt'") ∧
      readFile ["r"] fs2 "y/z.txt" = "Contents of y/z.txt:\nhello" ∧
      readFile ["r"] fs2 "x.txt" = "File x.txt not found.") ∧
    (∀ fs' : FS, existsFS fs' ["x.txt"] = true →
      existsFS fs' ["y", "z.txt"] = true →
      renameFile ["r"] fs' "x.txt" "y/z.txt" =
        (fs', "Error: Destination path 'y/z.txt' already exists")) :=
  C8_amended_rename_moves_file ["r"] [(["x.txt"], Node.file "hello")]
    "x.txt" "y/z.txt" "hello" ["x.txt"] ["y", "z.txt"]
    (by rfl) (by rfl) (by rfl) (by rfl) (by decide) (by decide)

/-! ### Claim C10 -/

/-- C10: `list_files` strips only the final extension of each file's relative
path, so the distinct files `a.txt` and `a.md` produce the identical line `a`
and the output contains duplicate lines; a double extension `b.tar.gz` keeps
its first extension. -/
theorem C10_extension_stripping_collides :
    listFiles [(["a.txt"], Node.file "1"), (["a.md"], Node.file "2")] =
      "a\na" ∧
    listFilesLines [(["a.txt"], Node.file "1"), (["a.md"], Node.file "2")] =
      ["a", "a"] ∧
    listFiles [(["b.tar.gz"], Node.file "x")] = "b.tar" := by
  refine ⟨?_, ?_, ?_⟩ <;> rfl

/-! ### Properties of the comparison functions and of `sorted` -/

theorem natListLe_total (a : List Nat) :
    ∀ b, natListLe a b = true ∨ natListLe b a = true := by
  induction a with
  | nil => intro b; left; rfl
  | cons x xs ih =>
    intro b
    cases b with
    | nil => right; rfl
    | cons y ys =>
      rcases Nat.lt_trichotomy x y with h | h | h
      · left; simp [natListLe, h]
      · subst h
        rcases ih ys with h2 | h2
        · left; simp [natListLe, h2]
        · right; simp [natListLe, h2]
      · right; simp [natListLe, h]

theorem natListLe_trans (a : List Nat) :
    ∀ b c, natListLe a b = true → natListLe b c = true →
      natListLe a c = true := by
  induction a with
  | nil => intro b c _ _; rfl
  | cons x xs ih =>
    intro b c h1 h2
    cases b with
    | nil => simp [natListLe] at h1
    | cons y ys =>
      cases c with
      | nil => simp [natListLe] at h2
      | cons z zs =>
        simp only [natListLe] at h1 h2 ⊢
        split_ifs at h1 h2 ⊢ <;>
          first
          | rfl
          | exact ih ys zs h1 h2
          | exact Bool.noConfusion h1
          | exact Bool.noConfusion h2
          | (exfalso; omega)

theorem strLeB_total (a b : String) (h : strLeB a b = false) :
    strLeB b a = true := by
  rcases natListLe_total (strKey a) (strKey b) with h1 | h1
  · rw [strLeB] at h
    rw [h1] at h
    exact Bool.noConfusion h
  · exact h1

theorem strLeB_trans {a b c : String} (h1 : strLeB a b = true)
    (h2 : strLeB b c = true) : strLeB a c = true :=
  natListLe_trans (strKey a) (strKey b) (strKey c) h1 h2

theorem keyLe_total (a b : String) (h : keyLe a b = false) :
    keyLe b a = true := by
  unfold keyLe at h ⊢
  by_cases hm : endsWithB "(Folder)" a = endsWithB "(Folder)" b
  · rw [if_pos hm] at h
    rw [if_pos hm.symm]
    exact strLeB_total a b h
  · rw [if_neg hm] at h
    rw [if_neg (fun hh => hm hh.symm)]
    cases hb : endsWithB "(Folder)" b
    · exact absurd (h.trans hb.symm) hm
    · rfl

theorem keyLe_trans (a b c : String) (h1 : keyLe a b = true)
    (h2 : keyLe b c = true) : keyLe a c = true := by
  unfold keyLe at h1 h2 ⊢
  cases ha : endsWithB "(Folder)" a <;> cases hb : endsWithB "(Folder)" b <;>
    cases hc : endsWithB "(Folder)" c <;>
    simp only [ha, hb, hc, if_pos, if_neg, reduceIte] at h1 h2 ⊢ <;>
    first
    | rfl
    | exact Bool.noConfusion h1
    | exact Bool.noConfusion h2
    | exact strLeB_trans h1 h2

theorem mem_insertOrd (le : String → String → Bool) (x z : String) :
    ∀ l, z ∈ insertOrd le x l ↔ z = x ∨ z ∈ l := by
  intro l
  induction l with
  | nil => simp [insertOrd]
  | cons y ys ih =>
    rw [insertOrd]
    split
    · simp [List.mem_cons]
    · simp only [List.mem_cons, ih]
      tauto

theorem pairwise_insertOrd (le : String → String → Bool)
    (htot : ∀ a b, le a b = false → le b a = true)
    (htrans : ∀ a b c, le a b = true → le b c = true → le a c = true)
    (x : String) :
    ∀ l, List.Pairwise (fun a b => le a b = true) l →
      List.Pairwise (fun a b => le a b = true) (insertOrd le x l) := by
  intro l
  induction l with
  | nil => intro _; simp [insertOrd]
  | cons y ys ih =>
    intro hp
    rcases List.pairwise_cons.mp hp with ⟨hy, hys⟩
    rw [insertOrd]
    split
    · rename_i hxy
      refine List.pairwise_cons.mpr ⟨?_, hp⟩
      intro z hz
      rcases List.mem_cons.mp hz with rfl | hz'
      · exact hxy
      · exact htrans x y z hxy (hy z hz')
    · rename_i hxy
      have hyx : le y x = true :=
        htot x y (Bool.eq_false_iff.mpr hxy)
      refine List.pairwise_cons.mpr ⟨?_, ih hys⟩
      intro z hz
      rcases (mem_insertOrd le x z ys).mp hz with rfl | hz'
      · exact hyx
      · exact hy z hz'

theorem pairwise_sortOrd (le : String → String → Bool)
    (htot : ∀ a b, le a b = false → le b a = true)
    (htrans : ∀ a b c, le a b = true → le b c = true → le a c = true)
    (l : List String) :
    List.Pairwise (fun a b => le a b = true) (sortOrd le l) := by
  induction l with
  | nil => simp [sortOrd]
  | cons x xs ih =>
    rw [sortOrd, List.foldr_cons]
    exact pairwise_insertOrd le htot htrans x _ ih

/-! ### Claim C9 -/

/-- C9: in the output lines of `list_all`, every pair of lines in order
satisfies the sort contract of line 151: a line without the folder marker
never precedes one with it, and lines whose marker status agrees are in
lexicographic (codepoint) order; and when nothing is found the empty
sentinel is returned. -/
theorem C9_listAll_sorted_folders_first (fs : FS) :
    List.Pairwise
      (fun a b =>
        (endsWithB "(Folder)" b = true → endsWithB "(Folder)" a = true) ∧
        (endsWithB "(Folder)" a = endsWithB "(Folder)" b → strLeB a b = true))
      (listAllLines fs) ∧
    (listAllItems fs = [] → listAll fs = "No files or folders found") := by
  constructor
  · have hp := pairwise_sortOrd keyLe keyLe_total keyLe_trans (listAllItems fs)
    refine hp.imp ?_
    intro a b hab
    constructor
    · intro hbf
      by_cases haf : endsWithB "(Folder)" a = true
      · exact haf
      · exfalso
        unfold keyLe at hab
        rw [if_neg (by rw [hbf]; exact haf)] at hab
        exact haf hab
    · intro heq
      unfold keyLe at hab
      rw [if_pos heq] at hab
      exact hab
  · intro h
    have hl : listAllLines fs = [] := by rw [listAllLines, h]; rfl
    rw [listAll, hl]

/-- C9, witness: concrete instances for the sentinel and the sortedness (with
a folder `b` and a file `a.txt`, the folder lines precede the file lines). -/
theorem C9_listAll_sorted_folders_first_witness :
    listAll [] = "No files or folders found" ∧
    List.Pairwise
      (fun a b =>
        (endsWithB "(Folder)" b = true → endsWithB "(Folder)" a = true) ∧
        (endsWithB "(Folder)" a = endsWithB "(Folder)" b → strLeB a b = true))
      (listAllLines [(["b"], Node.dirNode), (["a.txt"], Node.file "x")]) :=
  ⟨(C9_listAll_sorted_folders_first []).2 rfl,
   (C9_listAll_sorted_folders_first
     [(["b"], Node.dirNode), (["a.txt"], Node.file "x")]).1⟩

theorem strAppend_assoc (a b c : String) : a ++ b ++ c = a ++ (b ++ c) := by
  apply String.ext
  simp [String.data_append, List.append_assoc]

theorem strAppend_right_lit (x : String) {y z w : String} (h : y ++ z = w) :
    x ++ y ++ z = x ++ w := by
  rw [strAppend_assoc, h]

/-! ### Claim C1 -/

/-- C1: for every relative path string whose canonicalized join with the
(already canonical) sandbox root is neither the root itself nor a descendant
of it, validation fails with `PathTraversal`, and every operation that
validates the path — create/read/update/delete file, create/delete folder and
rename (in either argument position) — returns an error message with the
filesystem state unchanged, so nothing is mutated inside or outside the
sandbox. -/
theorem C1_traversal_rejected_everywhere (root : List String) (p : String)
    (hroot : resolveSegs root = root)
    (hout : segPrefixB root (canonJoin root p) = false) :
    validatePath root p = Except.error PathErr.pathTraversal ∧
    (∀ fs c, createFile root fs p c =
      (fs, "Error creating " ++ p ++ ": Path traversal attempt detected")) ∧
    (∀ fs : FS, readFile root fs p = "Could not read " ++ p) ∧
    (∀ fs c, updateFile root fs p c = (fs, "Failed to update " ++ p)) ∧
    (∀ fs : FS, deleteFile root fs p = (fs, "Failed to delete " ++ p)) ∧
    (∀ fs ow, createFolder root fs p ow =
      (fs, "Failed to create folder " ++ p)) ∧
    (∀ fs : FS, deleteFolder root fs p =
      (fs, "Failed to delete folder " ++ p)) ∧
    (∀ fs pn, renameFile root fs p pn =
      (fs, "Failed to rename '" ++ p ++ "': Path traversal attempt detected")) ∧
    (∀ fs po, (renameFile root fs po p).1 = fs ∧
      ∃ m, (renameFile root fs po p).2 =
        "Failed to rename '" ++ po ++ "': " ++ m) := by
  have hcond : ¬((parsePath (pyStrip p)).1 = false ∧
      (parsePath (pyStrip p)).2 = []) := by
    rintro ⟨h1, h2⟩
    have hcj : canonJoin root p = root := by
      rw [canonJoin, h1, h2]
      simpa using hroot
    rw [hcj, segPrefixB_refl] at hout
    exact Bool.noConfusion hout
  have hval : validatePath root p = Except.error PathErr.pathTraversal := by
    simp only [validatePath]
    rw [if_neg hcond]
    simp [hout]
  refine ⟨hval, ?_, ?_, ?_, ?_, ?_, ?_, ?_, ?_⟩
  · intro fs c
    simp [createFile, hval, errString]
    exact strAppend_right_lit _ (by decide)
  · intro fs; simp [readFile, hval]
  · intro fs c; simp [updateFile, hval]
  · intro fs; simp [deleteFile, hval]
  · intro fs ow; simp [createFolder, hval]
  · intro fs; simp [deleteFolder, hval]
  · intro fs pn
    simp [renameFile, hval, errString]
    exact strAppend_right_lit _ (by decide)
  · intro fs po
    cases hvo : validatePath root po with
    | error e =>
      exact ⟨by simp [renameFile, hvo], errString e, by simp [renameFile, hvo]⟩
    | ok qo =>
      exact ⟨by simp [renameFile, hvo, hval],
        "Path traversal attempt detected",
        by simp [renameFile, hvo, hval, errString]⟩

/-- C1, witness: the path `"../etc"` escapes the sandbox and is rejected by
validation and by `create_file`, which leaves the state unchanged. -/
theorem C1_traversal_rejected_everywhere_witness :
    validatePath ["scratchpad"] "../etc" = Except.error PathErr.pathTraversal ∧
    createFile ["scratchpad"] [(["a"], Node.file "x")] "../etc" "c" =
      ([(["a"], Node.file "x")],
        "Error creating ../etc: Path traversal attempt detected") := by
  have h := C1_traversal_rejected_everywhere ["scratchpad"] "../etc"
    (by rfl) (by rfl)
  exact ⟨h.1, h.2.1 _ _⟩

/-! ### Claim C3 -/

/-- C3: on every input and state, each store operation returns a plain result
string — one of its success messages or one of its error messages; the
embedding is total, mirroring the `try/except` boundary that converts every
validation or filesystem failure into a returned string. -/
theorem C3_every_result_is_a_message (root : List String) (fs : FS)
    (p pn c : String) (ow : Bool) :
    ((createFile root fs p c).2 = "Created " ++ p ∨
      (createFile root fs p c).2 = "File " ++ p ++ " already exists" ∨
      ∃ m, (createFile root fs p c).2 = "Error creating " ++ p ++ ": " ++ m) ∧
    (readFile root fs p = "Could not read " ++ p ∨
      readFile root fs p = "File " ++ p ++ " not found." ∨
      readFile root fs p = "Path " ++ p ++ " is not a file." ∨
      ∃ t, readFile root fs p = "Contents of " ++ p ++ ":\n" ++ t) ∧
    ((updateFile root fs p c).2 = "Failed to update " ++ p ∨
      (updateFile root fs p c).2 = "File " ++ p ++ " not found" ∨
      (updateFile root fs p c).2 = "Path " ++ p ++ " is not a file" ∨
      (updateFile root fs p c).2 = "Updated " ++ p) ∧
    ((deleteFile root fs p).2 = "Failed to delete " ++ p ∨
      (deleteFile root fs p).2 = "File " ++ p ++ " not found" ∨
      (deleteFile root fs p).2 = "Path " ++ p ++ " is not a file" ∨
      (deleteFile root fs p).2 = "Deleted " ++ p) ∧
    ((createFolder root fs p ow).2 = "Failed to create folder " ++ p ∨
      (createFolder root fs p ow).2 =
        "Path " ++ p ++ " is a file, cannot create folder here." ∨
      (createFolder root fs p ow).2 = "Folder " ++ p ++ " already exists" ∨
      (createFolder root fs p ow).2 = "Created folder " ++ p) ∧
    ((deleteFolder root fs p).2 = "Failed to delete folder " ++ p ∨
      (deleteFolder root fs p).2 = "Folder " ++ p ++ " not found" ∨
      (deleteFolder root fs p).2 = "Path " ++ p ++ " is not a directory" ∨
      (deleteFolder root fs p).2 = "Deleted folder " ++ p) ∧
    ((∃ m, (renameFile root fs p pn).2 =
        "Failed to rename '" ++ p ++ "': " ++ m) ∨
      (renameFile root fs p pn).2 =
        "Error: Source path '" ++ p ++ "' does not exist" ∨
      (renameFile root fs p pn).2 =
        "Error: Destination path '" ++ pn ++ "' already exists" ∨
      (renameFile root fs p pn).2 =
        "Successfully renamed/moved '" ++ p ++ "' to '" ++ pn ++ "'") ∧
    (listFiles fs = "No files found" ∨
      listFiles fs = joinLines (listFilesLines fs)) ∧
    (listFilesWithExtensions fs = "No files found" ∨
      listFilesWithExtensions fs = joinLines (listFilesExtLines fs)) ∧
    (listAll fs = "No files or folders found" ∨
      listAll fs = joinLines (listAllLines fs)) := by
  refine ⟨?_, ?_, ?_, ?_, ?_, ?_, ?_, ?_, ?_, ?_⟩
  · cases hv : validatePath root p with
    | error e =>
      exact Or.inr (Or.inr ⟨errString e, by simp [createFile, hv]⟩)
    | ok q =>
      cases hm : mkdirP fs q.dropLast with
      | error m =>
        exact Or.inr (Or.inr ⟨m, by simp [createFile, hv, hm]⟩)
      | ok fs1 =>
        cases hex : existsFS fs1 q with
        | true => exact Or.inr (Or.inl (by simp [createFile, hv, hm, hex]))
        | false => exact Or.inl (by simp [createFile, hv, hm, hex])
  · cases hv : validatePath root p with
    | error e => exact Or.inl (by simp [readFile, hv])
    | ok q =>
      cases hex : existsFS fs q with
      | false => exact Or.inr (Or.inl (by simp [readFile, hv, hex]))
      | true =>
        cases hif : isFileFS fs q with
        | false => exact Or.inr (Or.inr (Or.inl (by simp [readFile, hv, hex, hif])))
        | true =>
          have hl : ∃ t, lookupFS fs q = some (Node.file t) := by
            cases hlk : lookupFS fs q with
            | none => rw [isFileFS, hlk] at hif; simp at hif
            | some n =>
              cases n with
              | file t => exact ⟨t, rfl⟩
              | dirNode => rw [isFileFS, hlk] at hif; simp at hif
          obtain ⟨t, hlk⟩ := hl
          exact Or.inr (Or.inr (Or.inr
            ⟨t, by simp [readFile, hv, hex, hif, hlk]⟩))
  · cases hv : validatePath root p with
    | error e => exact Or.inl (by simp [updateFile, hv])
    | ok q =>
      cases hex : existsFS fs q with
      | false => exact Or.inr (Or.inl (by simp [updateFile, hv, hex]))
      | true =>
        cases hif : isFileFS fs q with
        | false =>
          exact Or.inr (Or.inr (Or.inl (by simp [updateFile, hv, hex, hif])))
        | true =>
          exact Or.inr (Or.inr (Or.inr (by simp [updateFile, hv, hex, hif])))
  · cases hv : validatePath root p with
    | error e => exact Or.inl (by simp [deleteFile, hv])
    | ok q =>
      cases hex : existsFS fs q with
      | false => exact Or.inr (Or.inl (by simp [deleteFile, hv, hex]))
      | true =>
        cases hif : isFileFS fs q with
        | false =>
          exact Or.inr (Or.inr (Or.inl (by simp [deleteFile, hv, hex, hif])))
        | true =>
          exact Or.inr (Or.inr (Or.inr (by simp [deleteFile, hv, hex, hif])))
  · cases hv : validatePath root p with
    | error e => exact Or.inl (by simp [createFolder, hv])
    | ok q =>
      cases hex : existsFS fs q with
      | false =>
        cases hm : mkdirPGo fs [] q with
        | error m => exact Or.inl (by simp [createFolder, hv, hex, hm])
        | ok fs2 =>
          exact Or.inr (Or.inr (Or.inr (by simp [createFolder, hv, hex, hm])))
      | true =>
        cases hif : isFileFS fs q with
        | true =>
          exact Or.inr (Or.inl (by simp [createFolder, hv, hex, hif]))
        | false =>
          cases ow with
          | false =>
            exact Or.inr (Or.inr (Or.inl
              (by simp [createFolder, hv, hex, hif])))
          | true =>
            cases hm : mkdirPGo (rmtreeFS fs q) [] q with
            | error m =>
              exact Or.inl (by simp [createFolder, hv, hex, hif, hm])
            | ok fs2 =>
              exact Or.inr (Or.inr (Or.inr
                (by simp [createFolder, hv, hex, hif, hm])))
  · cases hv : validatePath root p with
    | error e => exact Or.inl (by simp [deleteFolder, hv])
    | ok q =>
      cases hex : existsFS fs q with
      | false => exact Or.inr (Or.inl (by simp [deleteFolder, hv, hex]))
      | true =>
        cases hid : isDirFS fs q with
        | false =>
          exact Or.inr (Or.inr (Or.inl (by simp [deleteFolder, hv, hex, hid])))
        | true =>
          exact Or.inr (Or.inr (Or.inr (by simp [deleteFolder, hv, hex, hid])))
  · cases hvo : validatePath root p with
    | error e => exact Or.inl ⟨errString e, by simp [renameFile, hvo]⟩
    | ok qo =>
      cases hvn : validatePath root pn with
      | error e => exact Or.inl ⟨errString e, by simp [renameFile, hvo, hvn]⟩
      | ok qn =>
        cases hexo : existsFS fs qo with
        | false =>
          exact Or.inr (Or.inl (by simp [renameFile, hvo, hvn, hexo]))
        | true =>
          cases hexn : existsFS fs qn with
          | true =>
            exact Or.inr (Or.inr (Or.inl
              (by simp [renameFile, hvo, hvn, hexo, hexn])))
          | false =>
            cases hm : mkdirP fs qn.dropLast with
            | error m =>
              exact Or.inl ⟨m, by simp [renameFile, hvo, hvn, hexo, hexn, hm]⟩
            | ok fs1 =>
              cases hmv : moveFS fs1 qo qn with
              | error m =>
                exact Or.inl
                  ⟨m, by simp [renameFile, hvo, hvn, hexo, hexn, hm, hmv]⟩
              | ok fs2 =>
                exact Or.inr (Or.inr (Or.inr
                  (by simp [renameFile, hvo, hvn, hexo, hexn, hm, hmv])))
  · cases hls : listFilesLines fs with
    | nil => exact Or.inl (by simp [listFiles, hls])
    | cons a as => exact Or.inr (by simp [listFiles, hls])
  · cases hls : listFilesExtLines fs with
    | nil => exact Or.inl (by simp [listFilesWithExtensions, hls])
    | cons a as => exact Or.inr (by simp [listFilesWithExtensions, hls])
  · cases hls : listAllLines fs with
    | nil => exact Or.inl (by simp [listAll, hls])
    | cons a as => exact Or.inr (by simp [listAll, hls])

end SandboxStore
